import Mathlib

/-!
Shallow embedding of the ShadowPay private-transfer fragmentation and
compliance-attestation engine, translated from the TypeScript sources
(`src/lib/privacy-utils.ts`, `src/lib/range-client.ts`,
`src/lib/noir-proof-service.ts`, `src/lib/compliance-service.ts`,
`src/app/page.tsx`).  JavaScript numbers are modelled as exact rationals,
byte arrays as lists of naturals, and fallible code as `Except`.
External effects (the risk provider, the proving backend, ed25519 key
generation, the random number generator) are passed in explicitly as
parameters or draw streams, matching the spec's injected-collaborator
design.
-/

namespace ShadowPay

/-- JS `Math.round`: round half toward positive infinity. -/
def jsRound (x : ℚ) : ℤ := ⌊x + 1/2⌋

/-! ## PrivacyScorer (`calculatePrivacyScore`, privacy-utils.ts lines 116-127) -/

/-- The config record taken by `calculatePrivacyScore`. -/
structure PrivacyConfig where
  splitCount : ℚ
  uniqueAddresses : ℚ
  minAgingHours : ℚ
  poolSize : ℚ

/-- Source: `Math.min(100, (config.splitCount / 5) * 100)` -/
def splitScore (c : PrivacyConfig) : ℚ := min 100 (c.splitCount / 5 * 100)

/-- Source: `config.uniqueAddresses >= config.splitCount ? 100 : (config.uniqueAddresses / config.splitCount) * 100` -/
def addressScore (c : PrivacyConfig) : ℚ :=
  if c.splitCount ≤ c.uniqueAddresses then 100 else c.uniqueAddresses / c.splitCount * 100

/-- Source: `Math.min(100, (config.minAgingHours / 48) * 100)` -/
def agingScore (c : PrivacyConfig) : ℚ := min 100 (c.minAgingHours / 48 * 100)

/-- Source: `Math.min(100, (config.poolSize / 1000) * 100)` -/
def poolScore (c : PrivacyConfig) : ℚ := min 100 (c.poolSize / 1000 * 100)

/-- Source: `calculatePrivacyScore` (privacy-utils.ts lines 116-127): the rounded
weighted sum of the four component scores.  Note the source applies no
final clamp; `Math.round` is the only step after the weighted sum. -/
def calculatePrivacyScore (c : PrivacyConfig) : ℤ :=
  jsRound (splitScore c * (3/10) + addressScore c * (1/4) +
           agingScore c * (1/4) + poolScore c * (1/5))

/-! ## ComplianceGateway (`RangeClient`, range-client.ts)

`checkCompliance` first fetches the risk data and `checkSanctions` re-fetches
it; the claims are stated over a single provider response, so both are
modelled as pure functions of that response. -/

/-- One entry of `maliciousAddressesFound`. -/
structure MaliciousEvidence where
  address : String
  distance : ℤ
  category : String

/-- The risk-provider response fields `checkCompliance` reads. -/
structure RiskScoreResponse where
  riskScore : ℚ
  maliciousAddressesFound : List MaliciousEvidence
  reasoning : String

/-- Source: `const SANCTION_CATEGORIES = ['ofac', 'sanctions', 'blacklist', 'hack_funds']` -/
def SANCTION_CATEGORIES : List String := ["ofac", "sanctions", "blacklist", "hack_funds"]

/-- JS `String.prototype.includes`: substring containment. -/
def jsIncludes (s pat : String) : Bool :=
  (List.range (s.toList.length + 1)).any fun i =>
    (s.toList.drop i).take pat.toList.length == pat.toList

/-- Source: `checkSanctions` (range-client.ts lines 302-312): direct (`distance == 0`)
evidence in a sanction category, or a risk score of exactly 10. -/
def checkSanctions (riskData : RiskScoreResponse) : Bool :=
  (riskData.maliciousAddressesFound.any fun m =>
    decide (m.distance = 0) && SANCTION_CATEGORIES.any fun cat =>
      jsIncludes m.category.toLower cat)
  || decide (riskData.riskScore = 10)

/-- The fields of `ComplianceCheckResult` the claims inspect. -/
structure ComplianceCheckResult where
  isCompliant : Bool
  riskScore : ℚ
  isSanctioned : Bool

/-- Source: `checkCompliance` (range-client.ts lines 314-330), as a function of the
per-instance `maxRiskThreshold` and the provider response. -/
def checkCompliance (maxRiskThreshold : ℚ) (riskData : RiskScoreResponse) :
    ComplianceCheckResult :=
  let isSanctioned := checkSanctions riskData
  { isCompliant := decide (riskData.riskScore ≤ maxRiskThreshold) && !isSanctioned
    riskScore := riskData.riskScore
    isSanctioned := isSanctioned }

/-! ## NoirProofService (noir-proof-service.ts)

Proof bytes (`Uint8Array`) are modelled as lists of naturals below 256,
public inputs as ordered string lists.  The external proving backend is an
injected parameter: at generation time it is a total function (the source's
`generateProof` catches every backend error and falls back to a mock proof,
so it never throws), at verification time an optional fallible verifier
(`none` models a missing circuit artifact or uninitialized backend). -/

/-- The `GeneratedProof` record. -/
structure GeneratedProof where
  proof : List ℕ
  publicInputs : List String
  isRealProof : Bool
  deriving DecidableEq

/-- The `VerificationResult` record. -/
structure VerificationResult where
  isValid : Bool
  error : Option String
  deriving DecidableEq

/-- The `CircuitType` union. -/
inductive CircuitType where
  | age_verification
  | risk_threshold
  | selective_disclosure
  deriving DecidableEq

/-- Source: `verifyProof` (noir-proof-service.ts lines 154-180).  `realVerify ct`
models the availability of a loaded circuit artifact plus initialized
backend for circuit `ct` (`none` when `loadCircuit` returned null or the
backend libraries are absent); a `.error` result models a thrown backend
exception, caught and reported as invalid. -/
def verifyProof (realVerify : CircuitType → Option (GeneratedProof → Except String Bool))
    (circuitType : CircuitType) (p : GeneratedProof) : VerificationResult :=
  if !p.isRealProof then
    { isValid := decide (0 < p.proof.length), error := none }
  else
    match realVerify circuitType with
    | none => { isValid := decide (0 < p.proof.length), error := none }
    | some v =>
      match v p with
      | .ok b => { isValid := b, error := none }
      | .error e => { isValid := false, error := some e }

/-- Source: `validateAgeInput` (noir-proof-service.ts lines 262-272). -/
def validateAgeInput (age minimumAge : ℚ) : Except String Unit :=
  if age < 0 ∨ 255 < age then
    .error "Invalid age: must be between 0 and 255 (u8)"
  else if minimumAge < 0 ∨ 255 < minimumAge then
    .error "Invalid minimum age: must be between 0 and 255 (u8)"
  else if age < minimumAge then
    .error "Age verification will fail: age is below minimum"
  else .ok ()

/-- Source: `validateRiskInput` (noir-proof-service.ts lines 274-284). -/
def validateRiskInput (riskScore maxAllowedRisk : ℚ) : Except String Unit :=
  if riskScore < 1 ∨ 10 < riskScore then
    .error "Invalid risk score: must be between 1 and 10"
  else if maxAllowedRisk < 1 ∨ 10 < maxAllowedRisk then
    .error "Invalid max risk: must be between 1 and 10"
  else if maxAllowedRisk < riskScore then
    .error "Risk verification will fail: risk exceeds threshold"
  else .ok ()

/-- The `SelectiveDisclosureInput` record. -/
structure SelectiveDisclosureInput where
  age : ℚ
  riskScore : ℚ
  isSanctioned : Bool
  walletBalanceUsd : ℚ
  minimumAge : ℚ
  maxRiskScore : ℚ
  minBalanceUsd : ℚ

/-- Source: `validateSelectiveDisclosureInput` (noir-proof-service.ts lines 286-296). -/
def validateSelectiveDisclosureInput (i : SelectiveDisclosureInput) : Except String Unit := do
  validateAgeInput i.age i.minimumAge
  validateRiskInput i.riskScore i.maxRiskScore
  if i.isSanctioned then
    throw "Selective disclosure will fail: address is sanctioned"
  else if i.walletBalanceUsd < i.minBalanceUsd then
    throw "Selective disclosure will fail: balance below minimum"
  else pure ()

/-- Source: `generateAgeProof`: validate, then call the (never-throwing) proof
generator. -/
def generateAgeProof (genProof : CircuitType → GeneratedProof)
    (age minimumAge : ℚ) : Except String GeneratedProof := do
  validateAgeInput age minimumAge
  pure (genProof .age_verification)

/-- Source: `generateRiskProof`: validate, then call the proof generator. -/
def generateRiskProof (genProof : CircuitType → GeneratedProof)
    (riskScore maxAllowedRisk : ℚ) : Except String GeneratedProof := do
  validateRiskInput riskScore maxAllowedRisk
  pure (genProof .risk_threshold)

/-- Source: `generateSelectiveDisclosureProof`: validate, then call the proof
generator. -/
def generateSelectiveDisclosureProof (genProof : CircuitType → GeneratedProof)
    (i : SelectiveDisclosureInput) : Except String GeneratedProof := do
  validateSelectiveDisclosureInput i
  pure (genProof .selective_disclosure)

/-! ## ComplianceService (compliance-service.ts) -/

/-- The `proofs` field of an `AttestationResult`: in JS the three keys hold
`undefined` until the corresponding proof was generated. -/
structure ProofsRecord where
  age : Option GeneratedProof
  risk : Option GeneratedProof
  selectiveDisclosure : Option GeneratedProof
  deriving DecidableEq

/-- The `AttestationResult` record (the opaque `attestationId` and the
`Date.now()` timestamp, both environment reads, are not modelled). -/
structure AttestationResult where
  isCompliant : Bool
  proofs : ProofsRecord
  complianceCheck : ComplianceCheckResult
  minimumAge : ℚ
  maxRiskScore : ℚ
  minBalanceUsd : ℚ

/-- The `AttestationRequest` record; `Option` fields model optional
(`undefined`-able) JS parameters. -/
structure AttestationRequest where
  age : ℚ
  minimumAge : Option ℚ
  maxRiskScore : Option ℚ
  minBalanceUsd : Option ℚ
  walletBalanceUsd : Option ℚ

/-- The service config fields read by `generateAttestation`. -/
structure ComplianceServiceConfig where
  maxRiskThreshold : Option ℚ
  defaultMinimumAge : Option ℚ
  defaultMinBalanceUsd : Option ℚ

/-- Source: `request.minimumAge ?? this.config.defaultMinimumAge ?? DEFAULT_MINIMUM_AGE` -/
def resolvedMinimumAge (config : ComplianceServiceConfig) (request : AttestationRequest) : ℚ :=
  request.minimumAge.getD (config.defaultMinimumAge.getD 18)

/-- Source: `request.maxRiskScore ?? this.config.maxRiskThreshold ?? DEFAULT_MAX_RISK` -/
def resolvedMaxRiskScore (config : ComplianceServiceConfig) (request : AttestationRequest) : ℚ :=
  request.maxRiskScore.getD (config.maxRiskThreshold.getD 5)

/-- Source: `request.minBalanceUsd ?? this.config.defaultMinBalanceUsd ?? DEFAULT_MIN_BALANCE` -/
def resolvedMinBalanceUsd (config : ComplianceServiceConfig) (request : AttestationRequest) : ℚ :=
  request.minBalanceUsd.getD (config.defaultMinBalanceUsd.getD 0)

/-- The selective-disclosure input assembled by `generateAttestation` from
the request, the resolved defaults and the provider verdict. -/
def sdInputOf (config : ComplianceServiceConfig) (request : AttestationRequest)
    (complianceCheck : ComplianceCheckResult) : SelectiveDisclosureInput :=
  ⟨request.age, complianceCheck.riskScore, complianceCheck.isSanctioned,
   request.walletBalanceUsd.getD 0, resolvedMinimumAge config request,
   resolvedMaxRiskScore config request, resolvedMinBalanceUsd config request⟩

/-- Source: `generateAttestation` (compliance-service.ts lines 77-132).  The awaited
provider verdict is the `complianceCheck` parameter; `genProof` is the
never-throwing proof generator.  The source's try block generates the age,
risk and selective-disclosure proofs in order into local variables and
catches the first validation error; the returned record keeps whatever was
assigned before the throw. -/
def attestationReturn (config : ComplianceServiceConfig) (request : AttestationRequest)
    (complianceCheck : ComplianceCheckResult) (proofs : ProofsRecord)
    (isCompliant : Bool) : AttestationResult :=
  { isCompliant := isCompliant
    proofs := proofs
    complianceCheck := complianceCheck
    minimumAge := resolvedMinimumAge config request
    maxRiskScore := resolvedMaxRiskScore config request
    minBalanceUsd := resolvedMinBalanceUsd config request }

def generateAttestation (genProof : CircuitType → GeneratedProof)
    (config : ComplianceServiceConfig) (request : AttestationRequest)
    (complianceCheck : ComplianceCheckResult) : AttestationResult :=
  match generateAgeProof genProof request.age (resolvedMinimumAge config request) with
  | .error _ => attestationReturn config request complianceCheck ⟨none, none, none⟩ false
  | .ok ageProof =>
    match generateRiskProof genProof complianceCheck.riskScore
        (resolvedMaxRiskScore config request) with
    | .error _ =>
      attestationReturn config request complianceCheck ⟨some ageProof, none, none⟩ false
    | .ok riskProof =>
      match generateSelectiveDisclosureProof genProof (sdInputOf config request complianceCheck) with
      | .error _ =>
        attestationReturn config request complianceCheck
          ⟨some ageProof, some riskProof, none⟩ false
      | .ok sdProof =>
        attestationReturn config request complianceCheck
          ⟨some ageProof, some riskProof, some sdProof⟩ true

/-- Source: `verifyAttestation` (compliance-service.ts lines 163-174). -/
def verifyAttestation (realVerify : CircuitType → Option (GeneratedProof → Except String Bool))
    (attestation : AttestationResult) : Bool :=
  match attestation.proofs.selectiveDisclosure with
  | none => false
  | some p => (verifyProof realVerify .selective_disclosure p).isValid

/-! ## Proof serialization (`serializeProof` / `deserializeProof`,
noir-proof-service.ts lines 298-313)

`serializeProof` builds a JSON object and stringifies it; `deserializeProof`
parses the string and reads the object's fields.  `JSON.parse ∘
JSON.stringify` is the identity on trees of numbers, strings, booleans and
arrays, so the string layer is modelled as that identity and serialization
is embedded at the JSON-tree level. -/

/-- A JSON value tree. -/
inductive JValue where
  | num : ℤ → JValue
  | str : String → JValue
  | bool : Bool → JValue
  | null : JValue
  | arr : List JValue → JValue
  | obj : List (String × JValue) → JValue

/-- Property lookup on a parsed JSON object (`parsed.key`); `none` models
`undefined`. -/
def jLookup (fields : List (String × JValue)) (key : String) : Option JValue :=
  (fields.find? fun kv => kv.1 == key).map Prod.snd

/-- The element coercion of `new Uint8Array(array)`: integer entries are
taken mod 2^8. -/
def jToUint8 : JValue → ℕ
  | .num n => (n % 256).toNat
  | _ => 0

/-- A parsed public-input entry read back as a string. -/
def jToStr : JValue → String
  | .str s => s
  | _ => ""

/-- Source: `serializeProof`: `{ proof: Array.from(proof.proof), publicInputs:
proof.publicInputs, isRealProof: proof.isRealProof }`. -/
def serializeProof (p : GeneratedProof) : JValue :=
  .obj [("proof", .arr (p.proof.map fun b => .num (Int.ofNat b))),
        ("publicInputs", .arr (p.publicInputs.map .str)),
        ("isRealProof", .bool p.isRealProof)]

/-- Source: `deserializeProof`: `new Uint8Array(parsed.proof)`, `parsed.publicInputs`,
`parsed.isRealProof ?? false`. -/
def deserializeProof (v : JValue) : GeneratedProof :=
  match v with
  | .obj fields =>
    { proof :=
        match jLookup fields "proof" with
        | some (.arr l) => l.map jToUint8
        | _ => []
      publicInputs :=
        match jLookup fields "publicInputs" with
        | some (.arr l) => l.map jToStr
        | _ => []
      isRealProof :=
        match jLookup fields "isRealProof" with
        | some (.bool b) => b
        | _ => false }
  | _ => { proof := [], publicInputs := [], isRealProof := false }

/-! ## AmountSplitter (`splitAmount` / `splitAmountDeterministic`,
privacy-utils.ts lines 30-114)

Both modes run the same weighting/noise/conservation pipeline over a stream
of draws in `[0,1)`; the pipeline is `splitCore`, parameterized by the draw
stream `r` in consumption order.  For `splitAmountDeterministic`, `r n`
stands for `seededRandom (seed + n + 1)` (the n-th drawn value; `Math.sin`
is transcendental, and every output of the fractional-part step lies in
`[0,1)`).  For `splitAmount`, `r 0` is the fragment-count draw and the core
consumes the shifted stream. -/

/-- Source: `const cents = [17, 23, 41, 67, 83, 91, 3, 7, 13, 29, 37, 43]` -/
def centsMenu : List ℤ := [17, 23, 41, 67, 83, 91, 3, 7, 13, 29, 37, 43]

/-- Source: `cents[Math.floor(draw * cents.length)]` -/
def pickCents (u : ℚ) : ℤ := centsMenu.getD (⌊u * 12⌋).toNat 0

/-- One fragment weight: `Math.pow(draw, 2) + 0.1`. -/
def weightOf (u : ℚ) : ℚ := u ^ 2 + 1/10

/-- Source: `Math.round(s * 10000) / 10000`: round to 4 decimals. -/
def round4 (s : ℚ) : ℚ := (jsRound (s * 10000) : ℚ) / 10000

/-- The per-fragment noise step: perturb by ±5%, truncate to 2 decimals
(`Math.floor(noisy * 100) / 100`), add the drawn sub-cent offset. -/
def noisyStep (splitCount : ℕ) (r : ℕ → ℚ) (i : ℕ) (s : ℚ) : ℚ :=
  ((⌊(s + (r (splitCount + 2 * i) - 1/2) * (1/10) * s) * 100⌋ : ℤ) : ℚ) / 100 +
    (pickCents (r (splitCount + 2 * i + 1)) : ℚ) / 10000

/-- The shared splitting pipeline (privacy-utils.ts lines 57-78 and 89-113):
weights, normalization to the total, noise, residual into the last fragment,
rounding to 4 decimals.  With `splitCount = 0` the weight/split lists are
empty and the residual write (`splits[-1] += ...` in JS) is a no-op, so the
result is `[]`. -/
def splitCore (total : ℚ) (splitCount : ℕ) (r : ℕ → ℚ) : List ℚ :=
  let weights := (List.range splitCount).map fun i => weightOf (r i)
  let totalWeight := weights.sum
  let splits := weights.map fun w => w / totalWeight * total
  let noisy := splits.mapIdx fun i s => noisyStep splitCount r i s
  let adjusted := noisy.dropLast ++
    (noisy.getLast?.map fun l => l + (total - noisy.sum)).toList
  adjusted.map round4

/-- Source: `splitAmountDeterministic` (lines 81-114) with the `seededRandom` stream
abstracted as `r`. -/
def splitAmountDeterministic (total : ℚ) (splitCount : ℕ) (r : ℕ → ℚ) : List ℚ :=
  if total < 1/10 then [total] else splitCore total splitCount r

/-- The magnitude band for the fragment count (lines 41-55). -/
def defaultBand (total : ℚ) : ℕ × ℕ :=
  if total < 1/2 then (2, 3)
  else if total < 2 then (3, 4)
  else if total < 10 then (3, 5)
  else (4, 7)

/-- The effective `[min,max]` band: when either bound is undefined, both are
taken from the magnitude band. -/
def effectiveBand (total : ℚ) (minSplits maxSplits : Option ℕ) : ℕ × ℕ :=
  match minSplits, maxSplits with
  | some mn, some mx => (mn, mx)
  | _, _ => defaultBand total

/-- Source: `effectiveMin + Math.floor(draw * (effectiveMax - effectiveMin + 1))`. -/
def chosenSplitCount (total : ℚ) (minSplits maxSplits : Option ℕ) (u : ℚ) : ℤ :=
  ((effectiveBand total minSplits maxSplits).1 : ℤ) +
    ⌊u * (((effectiveBand total minSplits maxSplits).2 : ℚ) -
      ((effectiveBand total minSplits maxSplits).1 : ℚ) + 1)⌋

/-- Source: `splitAmount` (lines 30-79) with the `Math.random()` stream abstracted
as `r`: `r 0` is the fragment-count draw, the shifted stream feeds the
pipeline. -/
def splitAmount (total : ℚ) (minSplits maxSplits : Option ℕ) (r : ℕ → ℚ) : List ℚ :=
  if total < 1/10 then [total]
  else splitCore total (chosenSplitCount total minSplits maxSplits (r 0)).toNat
    fun n => r (n + 1)

/-! ## AddressDeriver (`deriveKeypair` / `deriveAddress`, privacy-utils.ts
lines 3-28)

The derivation folds `seed ++ be32(index)` into a big integer modulo the
source's `ED25519_CURVE_ORDER` constant, writes it as 32 big-endian bytes,
and feeds those to the external `Keypair.fromSeed`.  The external composite
`Keypair.fromSeed(..).publicKey.toBase58()` is the injected map `fromSeed`
(its codomain left abstract); everything before it is the repository's own
arithmetic. -/

/-- Source: `const ED25519_CURVE_ORDER = BigInt('0x7FFF...FED')` (the value equals
`2^255 - 19`). -/
def ED25519_CURVE_ORDER : ℕ :=
  0x7FFFFFFFFFFFFFFFFFFFFFFFFFFFFFFFFFFFFFFFFFFFFFFFFFFFFFFFFFFFFFED

/-- Source: `new DataView(indexBytes.buffer).setUint32(0, index, false)`: the index
coerced to u32, written big-endian. -/
def indexBytes (index : ℕ) : List ℕ :=
  [index % 2 ^ 32 / 2 ^ 24 % 256, index % 2 ^ 32 / 2 ^ 16 % 256,
   index % 2 ^ 32 / 2 ^ 8 % 256, index % 2 ^ 32 % 256]

/-- The folding loop `hash = (hash * 256n + byte) % ED25519_CURVE_ORDER`. -/
def foldHash (bytes : List ℕ) : ℕ :=
  bytes.foldl (fun hash b => (hash * 256 + b) % ED25519_CURVE_ORDER) 0

/-- The extraction loop `derived[i] = hash & 0xFF; hash >>= 8n`, little
endian. -/
def toBytesLE : ℕ → ℕ → List ℕ
  | 0, _ => []
  | n + 1, h => h % 256 :: toBytesLE n (h / 256)

/-- The 32 derived seed bytes (written at indices 31 down to 0, hence big
endian). -/
def deriveSeedBytes (seed : List ℕ) (index : ℕ) : List ℕ :=
  (toBytesLE 32 (foldHash (seed ++ indexBytes index))).reverse

/-- Source: `deriveKeypair`, with the external `Keypair.fromSeed` abstracted as
`fromSeed`. -/
def deriveKeypair {α : Type} (fromSeed : List ℕ → α) (seed : List ℕ) (index : ℕ) : α :=
  fromSeed (deriveSeedBytes seed index)

/-- Source: `deriveAddress`: the keypair's base58 public key; the external
seed-to-address composite is the injected `fromSeed`. -/
def deriveAddress {α : Type} (fromSeed : List ℕ → α) (seed : List ℕ) (index : ℕ) : α :=
  deriveKeypair fromSeed seed index

/-- Reading the big-endian bytes back as a base-256 integer. -/
def decodeBE (l : List ℕ) : ℕ := l.foldl (fun a b => a * 256 + b) 0

/-! ## WithdrawalScheduler (`scheduleWithdrawals`, page.tsx lines 59-85)

The loop draws `poissonDelay = Math.round(-avgDelayMs * Math.log(1 -
Math.random()))` (an integer number of milliseconds), adds it to the
running cursor, then adds jitter `(Math.random() - 0.5) * 60 * 60 * 1000`.
The random/transcendental draws are abstracted into the integer delay
stream `delay` and the jitter stream `u`; the theorem constrains `delay` to
the rounded exponential form over the uniform draws `U`.  The `id` string
(a `Date.now()` read) is not modelled. -/

/-- The `status` union of a `ScheduledWithdrawal`. -/
inductive WithdrawalStatus where
  | pending
  | ready
  | executed
  deriving DecidableEq

/-- The `ScheduledWithdrawal` record (`targetAddress` in the abstract
address codomain). -/
@[ext]
structure ScheduledWithdrawal (α : Type) where
  amount : ℚ
  targetAddress : α
  scheduledTime : ℚ
  status : WithdrawalStatus

/-- Source: `const minAgingMs = 24 * 60 * 60 * 1000` -/
def minAgingMs : ℚ := 24 * 60 * 60 * 1000

/-- Source: `const avgDelayMs = 4 * 60 * 60 * 1000` -/
def avgDelayMs : ℚ := 4 * 60 * 60 * 1000

/-- The body of `splits.map((amount, index) => ...)` with the mutable
`currentTime` passed explicitly. -/
def scheduleFrom {α : Type} (fromSeed : List ℕ → α) (seed : List ℕ)
    (delay : ℕ → ℤ) (u : ℕ → ℚ) : ℚ → ℕ → List ℚ → List (ScheduledWithdrawal α)
  | _, _, [] => []
  | currentTime, index, amount :: rest =>
    { amount := amount
      targetAddress := deriveAddress fromSeed seed index
      scheduledTime := currentTime + (delay index : ℚ) +
        (u index - 1/2) * (60 * 60 * 1000)
      status := .pending } ::
      scheduleFrom fromSeed seed delay u (currentTime + (delay index : ℚ)) (index + 1) rest

/-- Source: `scheduleWithdrawals`: the cursor starts at `now + minAgingMs` and each
fragment's address uses its position as the derivation index. -/
def scheduleWithdrawals {α : Type} (fromSeed : List ℕ → α) (now : ℚ) (splits : List ℚ)
    (seed : List ℕ) (delay : ℕ → ℤ) (u : ℕ → ℚ) : List (ScheduledWithdrawal α) :=
  scheduleFrom fromSeed seed delay u (now + minAgingMs) 0 splits

/-- The pre-jitter cursor at fragment k: `now + 24h` plus the first `k + 1`
delays. -/
def preJitterCursor (now : ℚ) (delay : ℕ → ℤ) (k : ℕ) : ℚ :=
  now + minAgingMs + (((List.range (k + 1)).map fun i => ((delay i : ℤ) : ℚ)).sum)

/-! ## Lemmas and theorems -/

lemma jsRound_mono {x y : ℚ} (h : x ≤ y) : jsRound x ≤ jsRound y :=
  Int.floor_le_floor (by linarith)

lemma jsRound_nonneg {x : ℚ} (h : 0 ≤ x) : 0 ≤ jsRound x := by
  unfold jsRound
  rw [Int.le_floor]
  push_cast
  linarith

lemma jsRound_le_hundred {x : ℚ} (h : x ≤ 100) : jsRound x ≤ 100 := by
  have h1 : jsRound x ≤ jsRound 100 := jsRound_mono h
  have h2 : jsRound 100 = 100 := by norm_num [jsRound]
  omega

lemma splitScore_bounds {c : PrivacyConfig} (h : 0 ≤ c.splitCount) :
    0 ≤ splitScore c ∧ splitScore c ≤ 100 := by
  unfold splitScore
  refine ⟨le_min (by norm_num) (by positivity), min_le_left _ _⟩

lemma addressScore_bounds {c : PrivacyConfig} (h1 : 0 ≤ c.splitCount)
    (h2 : 0 ≤ c.uniqueAddresses) : 0 ≤ addressScore c ∧ addressScore c ≤ 100 := by
  unfold addressScore
  split
  · norm_num
  · rename_i hcond
    push_neg at hcond
    have hsc : 0 < c.splitCount := lt_of_le_of_lt h2 hcond
    constructor
    · positivity
    · have hdiv : c.uniqueAddresses / c.splitCount ≤ 1 :=
        (div_le_one hsc).mpr (le_of_lt hcond)
      nlinarith

lemma agingScore_bounds {c : PrivacyConfig} (h : 0 ≤ c.minAgingHours) :
    0 ≤ agingScore c ∧ agingScore c ≤ 100 := by
  unfold agingScore
  refine ⟨le_min (by norm_num) (by positivity), min_le_left _ _⟩

lemma poolScore_bounds {c : PrivacyConfig} (h : 0 ≤ c.poolSize) :
    0 ≤ poolScore c ∧ poolScore c ≤ 100 := by
  unfold poolScore
  refine ⟨le_min (by norm_num) (by positivity), min_le_left _ _⟩

/-- C7 counterexample: the privacy score is not monotone in `splitCount`.
Raising `splitCount` from 2 to 3 with the other three inputs held fixed at
`uniqueAddresses = 2`, `minAgingHours = 0`, `poolSize = 0` drops the score
from 37 to 35, because the address-uniqueness component falls from 100 to
200/3 faster than the split component rises. -/
theorem C7_counterexample :
    calculatePrivacyScore ⟨3, 2, 0, 0⟩ < calculatePrivacyScore ⟨2, 2, 0, 0⟩ := by
  have h1 : calculatePrivacyScore ⟨3, 2, 0, 0⟩ = 35 := by
    norm_num [calculatePrivacyScore, splitScore, addressScore, agingScore, poolScore, jsRound]
  have h2 : calculatePrivacyScore ⟨2, 2, 0, 0⟩ = 37 := by
    norm_num [calculatePrivacyScore, splitScore, addressScore, agingScore, poolScore, jsRound]
  omega

/-- C7 (amended): `calculatePrivacyScore` is deterministic; for every
configuration of nonnegative inputs the result lies in [0,100];
`score {splitCount := 5, uniqueAddresses := 5, minAgingHours := 48, poolSize := 1000} = 100`;
and the score is monotonically non-decreasing in `uniqueAddresses`,
`minAgingHours` and `poolSize` holding the other inputs fixed.  (It is NOT
monotone in `splitCount`; see the counterexample.) -/
theorem C7_privacy_score_shape (c : PrivacyConfig) (h1 : 0 ≤ c.splitCount)
    (h2 : 0 ≤ c.uniqueAddresses) (h3 : 0 ≤ c.minAgingHours) (h4 : 0 ≤ c.poolSize) :
    calculatePrivacyScore c = calculatePrivacyScore c ∧
    (0 ≤ calculatePrivacyScore c ∧ calculatePrivacyScore c ≤ 100) ∧
    calculatePrivacyScore ⟨5, 5, 48, 1000⟩ = 100 ∧
    (∀ ua, c.uniqueAddresses ≤ ua →
      calculatePrivacyScore c ≤
        calculatePrivacyScore ⟨c.splitCount, ua, c.minAgingHours, c.poolSize⟩) ∧
    (∀ ah, c.minAgingHours ≤ ah →
      calculatePrivacyScore c ≤
        calculatePrivacyScore ⟨c.splitCount, c.uniqueAddresses, ah, c.poolSize⟩) ∧
    (∀ ps, c.poolSize ≤ ps →
      calculatePrivacyScore c ≤
        calculatePrivacyScore ⟨c.splitCount, c.uniqueAddresses, c.minAgingHours, ps⟩) := by
  obtain ⟨hs0, hs1⟩ := splitScore_bounds h1
  obtain ⟨ha0, ha1⟩ := addressScore_bounds h1 h2
  obtain ⟨hg0, hg1⟩ := agingScore_bounds h3
  obtain ⟨hp0, hp1⟩ := poolScore_bounds h4
  refine ⟨rfl, ⟨?_, ?_⟩, ?_, ?_, ?_, ?_⟩
  · exact jsRound_nonneg (by linarith)
  · exact jsRound_le_hundred (by linarith)
  · norm_num [calculatePrivacyScore, splitScore, addressScore, agingScore, poolScore, jsRound]
  · intro ua hua
    apply jsRound_mono
    have hmono : addressScore c ≤ addressScore ⟨c.splitCount, ua, c.minAgingHours, c.poolSize⟩ := by
      unfold addressScore at *
      dsimp only at *
      split
      · rename_i hle
        rw [if_pos (le_trans hle hua)]
      · rename_i hlt
        push_neg at hlt
        have hsc : 0 < c.splitCount := lt_of_le_of_lt h2 hlt
        split
        · rename_i hle2
          have : c.uniqueAddresses / c.splitCount ≤ 1 := (div_le_one hsc).mpr (le_of_lt hlt)
          nlinarith
        · have : c.uniqueAddresses / c.splitCount ≤ ua / c.splitCount :=
            (div_le_div_iff_of_pos_right hsc).mpr hua
          nlinarith
    simp only [calculatePrivacyScore, splitScore, addressScore, agingScore, poolScore] at *
    nlinarith
  · intro ah hah
    apply jsRound_mono
    have hmono : agingScore c ≤ agingScore ⟨c.splitCount, c.uniqueAddresses, ah, c.poolSize⟩ := by
      unfold agingScore
      dsimp only
      exact min_le_min le_rfl (by nlinarith)
    simp only [calculatePrivacyScore, splitScore, addressScore, agingScore, poolScore] at *
    nlinarith
  · intro ps hps
    apply jsRound_mono
    have hmono : poolScore c ≤ poolScore ⟨c.splitCount, c.uniqueAddresses, c.minAgingHours, ps⟩ := by
      unfold poolScore
      dsimp only
      exact min_le_min le_rfl (by nlinarith)
    simp only [calculatePrivacyScore, splitScore, addressScore, agingScore, poolScore] at *
    nlinarith

/-- Witness for C7 (amended) at the all-zero configuration. -/
theorem C7_privacy_score_shape_witness :
    0 ≤ calculatePrivacyScore ⟨0, 0, 0, 0⟩ ∧ calculatePrivacyScore ⟨0, 0, 0, 0⟩ ≤ 100 :=
  (C7_privacy_score_shape ⟨0, 0, 0, 0⟩ (by norm_num) (by norm_num) (by norm_num)
    (by norm_num)).2.1

/-- C10: when `splitCount = 0` the address-uniqueness component is 100 for
every nonnegative `uniqueAddresses` (the `uniqueAddresses >= splitCount`
branch is taken even at 0), so the all-zero configuration scores 25, not 0. -/
theorem C10_zero_splitCount_score (ua ah ps : ℚ) (hua : 0 ≤ ua) :
    addressScore ⟨0, ua, ah, ps⟩ = 100 ∧
    calculatePrivacyScore ⟨0, 0, 0, 0⟩ = 25 := by
  constructor
  · unfold addressScore
    exact if_pos hua
  · norm_num [calculatePrivacyScore, splitScore, addressScore, agingScore, poolScore, jsRound]

/-- Witness for C10 at `uniqueAddresses = 7`. -/
theorem C10_zero_splitCount_score_witness :
    addressScore ⟨0, 7, 1, 2⟩ = 100 ∧ calculatePrivacyScore ⟨0, 0, 0, 0⟩ = 25 :=
  C10_zero_splitCount_score 7 1 2 (by norm_num)

/-- Source: `jsIncludes` decides substring containment. -/
lemma jsIncludes_iff (s pat : String) :
    jsIncludes s pat = true ↔ ∃ a b, s.toList = a ++ pat.toList ++ b := by
  unfold jsIncludes
  rw [List.any_eq_true]
  constructor
  · rintro ⟨i, -, htake⟩
    rw [beq_iff_eq] at htake
    refine ⟨s.toList.take i, (s.toList.drop i).drop pat.toList.length, ?_⟩
    conv_lhs => rw [← List.take_append_drop i s.toList,
      ← List.take_append_drop pat.toList.length (s.toList.drop i)]
    rw [htake, ← List.append_assoc]
  · rintro ⟨a, b, hs⟩
    refine ⟨a.length, ?_, ?_⟩
    · rw [List.mem_range, hs]
      simp
      omega
    · rw [beq_iff_eq, hs, List.append_assoc, List.drop_left, List.take_left]

/-- C2: for every risk-provider response, `checkCompliance` returns
`isCompliant = (riskScore ≤ threshold AND NOT isSanctioned)`, where
`isSanctioned` holds iff some `maliciousAddressesFound` entry has
`distance = 0` and a category containing a sanction keyword, or
`riskScore = 10`.  Consequently a response with `riskScore = 10` is
non-compliant for every threshold, and a response whose evidence entries all
have `distance > 0` is not marked sanctioned unless `riskScore = 10`. -/
theorem C2_compliance_verdict (threshold : ℚ) (r : RiskScoreResponse) :
    ((checkCompliance threshold r).isCompliant = true ↔
      (r.riskScore ≤ threshold ∧ checkSanctions r = false)) ∧
    (checkSanctions r = true ↔
      ((∃ m ∈ r.maliciousAddressesFound, m.distance = 0 ∧
          ∃ cat ∈ SANCTION_CATEGORIES,
            ∃ a b, m.category.toLower.toList = a ++ cat.toList ++ b) ∨
        r.riskScore = 10)) ∧
    (r.riskScore = 10 → (checkCompliance threshold r).isCompliant = false) ∧
    ((∀ m ∈ r.maliciousAddressesFound, 0 < m.distance) → r.riskScore ≠ 10 →
      (checkCompliance threshold r).isSanctioned = false) := by
  have hsanc : checkSanctions r = true ↔
      ((∃ m ∈ r.maliciousAddressesFound, m.distance = 0 ∧
          ∃ cat ∈ SANCTION_CATEGORIES,
            ∃ a b, m.category.toLower.toList = a ++ cat.toList ++ b) ∨
        r.riskScore = 10) := by
    unfold checkSanctions
    rw [Bool.or_eq_true, List.any_eq_true, decide_eq_true_eq]
    constructor
    · rintro (⟨m, hm, hcond⟩ | h10)
      · rw [Bool.and_eq_true, decide_eq_true_eq, List.any_eq_true] at hcond
        obtain ⟨hd, cat, hcat, hinc⟩ := hcond
        exact Or.inl ⟨m, hm, hd, cat, hcat, (jsIncludes_iff _ _).mp hinc⟩
      · exact Or.inr h10
    · rintro (⟨m, hm, hd, cat, hcat, hsub⟩ | h10)
      · refine Or.inl ⟨m, hm, ?_⟩
        rw [Bool.and_eq_true, decide_eq_true_eq, List.any_eq_true]
        exact ⟨hd, cat, hcat, (jsIncludes_iff _ _).mpr hsub⟩
      · exact Or.inr h10
  have hcompl : (checkCompliance threshold r).isCompliant = true ↔
      (r.riskScore ≤ threshold ∧ checkSanctions r = false) := by
    unfold checkCompliance
    simp only [Bool.and_eq_true, decide_eq_true_eq, Bool.not_eq_eq_eq_not, Bool.not_true]
  refine ⟨hcompl, hsanc, ?_, ?_⟩
  · intro h10
    cases hc : (checkCompliance threshold r).isCompliant with
    | false => rfl
    | true =>
      obtain ⟨-, hfalse⟩ := hcompl.mp hc
      rw [hsanc.mpr (Or.inr h10)] at hfalse
      simp at hfalse
  · intro hdist h10
    have : (checkCompliance threshold r).isSanctioned = checkSanctions r := rfl
    rw [this]
    cases hs : checkSanctions r with
    | false => rfl
    | true =>
      rcases hsanc.mp hs with ⟨m, hm, hd, -⟩ | h
      · have := hdist m hm
        omega
      · exact absurd h h10

/-- C4: for every proof with `isRealProof = false`, `verifyProof` returns
valid iff the proof byte payload is non-empty, whatever the backend state;
and `verifyAttestation` of an attestation without a selective-disclosure
proof is false (fails closed). -/
theorem C4_verification_policy
    (realVerify : CircuitType → Option (GeneratedProof → Except String Bool)) :
    (∀ ct p, p.isRealProof = false →
      ((verifyProof realVerify ct p).isValid = true ↔ 0 < p.proof.length)) ∧
    (∀ a : AttestationResult, a.proofs.selectiveDisclosure = none →
      verifyAttestation realVerify a = false) := by
  constructor
  · intro ct p hmock
    unfold verifyProof
    rw [hmock]
    simp
  · intro a hnone
    unfold verifyAttestation
    rw [hnone]

/-- Witness for C4: with no backend loaded, a mock proof with a one-byte
payload verifies, and an attestation lacking a selective-disclosure proof
does not. -/
theorem C4_verification_policy_witness :
    ((verifyProof (fun _ => none) .age_verification ⟨[1], [], false⟩).isValid = true ↔
      0 < ([1] : List ℕ).length) ∧
    verifyAttestation (fun _ => none)
      ⟨false, ⟨none, none, none⟩, ⟨false, 1, false⟩, 18, 5, 0⟩ = false :=
  ⟨(C4_verification_policy (fun _ => none)).1 .age_verification ⟨[1], [], false⟩ rfl,
   (C4_verification_policy (fun _ => none)).2
     ⟨false, ⟨none, none, none⟩, ⟨false, 1, false⟩, 18, 5, 0⟩ rfl⟩

lemma generateAgeProof_ok (genProof : CircuitType → GeneratedProof) (a m : ℚ)
    (h : validateAgeInput a m = .ok ()) :
    generateAgeProof genProof a m = .ok (genProof .age_verification) := by
  simp [generateAgeProof, h]

lemma generateAgeProof_error (genProof : CircuitType → GeneratedProof) (a m : ℚ) (e : String)
    (h : validateAgeInput a m = .error e) :
    generateAgeProof genProof a m = .error e := by
  simp [generateAgeProof, h]

lemma generateRiskProof_ok (genProof : CircuitType → GeneratedProof) (r m : ℚ)
    (h : validateRiskInput r m = .ok ()) :
    generateRiskProof genProof r m = .ok (genProof .risk_threshold) := by
  simp [generateRiskProof, h]

lemma generateRiskProof_error (genProof : CircuitType → GeneratedProof) (r m : ℚ) (e : String)
    (h : validateRiskInput r m = .error e) :
    generateRiskProof genProof r m = .error e := by
  simp [generateRiskProof, h]

lemma generateSDProof_ok (genProof : CircuitType → GeneratedProof) (i : SelectiveDisclosureInput)
    (h : validateSelectiveDisclosureInput i = .ok ()) :
    generateSelectiveDisclosureProof genProof i = .ok (genProof .selective_disclosure) := by
  simp [generateSelectiveDisclosureProof, h]

lemma generateSDProof_error (genProof : CircuitType → GeneratedProof)
    (i : SelectiveDisclosureInput) (e : String)
    (h : validateSelectiveDisclosureInput i = .error e) :
    generateSelectiveDisclosureProof genProof i = .error e := by
  simp [generateSelectiveDisclosureProof, h]

/-- An `Except String Unit` is `.ok ()` or an error. -/
lemma except_unit_cases (v : Except String Unit) : v = .ok () ∨ ∃ e, v = .error e := by
  cases v with
  | ok u => exact Or.inl (by cases u; rfl)
  | error e => exact Or.inr ⟨e, rfl⟩

/-- C3 (amended): `generateAttestation` is a total function into
`AttestationResult` — a proof-input validation failure never escapes it.
`isCompliant = true` iff all three validations pass; on the first failing
validation the attestation is still returned with `isCompliant = false`,
with the failing proof and all later ones omitted from `proofs`, while the
proofs generated before the failure remain present. -/
theorem C3_attestation_error_behavior (genProof : CircuitType → GeneratedProof)
    (config : ComplianceServiceConfig) (request : AttestationRequest)
    (complianceCheck : ComplianceCheckResult)
    (vAge vRisk vSD : Except String Unit)
    (hAge : vAge = validateAgeInput request.age (resolvedMinimumAge config request))
    (hRisk : vRisk = validateRiskInput complianceCheck.riskScore
      (resolvedMaxRiskScore config request))
    (hSD : vSD = validateSelectiveDisclosureInput (sdInputOf config request complianceCheck)) :
    ((generateAttestation genProof config request complianceCheck).isCompliant = true ↔
      (vAge = .ok () ∧ vRisk = .ok () ∧ vSD = .ok ())) ∧
    (vAge ≠ .ok () →
      (generateAttestation genProof config request complianceCheck).isCompliant = false ∧
      (generateAttestation genProof config request complianceCheck).proofs =
        ⟨none, none, none⟩) ∧
    (vAge = .ok () → vRisk ≠ .ok () →
      (generateAttestation genProof config request complianceCheck).isCompliant = false ∧
      (generateAttestation genProof config request complianceCheck).proofs =
        ⟨some (genProof .age_verification), none, none⟩) ∧
    (vAge = .ok () → vRisk = .ok () → vSD ≠ .ok () →
      (generateAttestation genProof config request complianceCheck).isCompliant = false ∧
      (generateAttestation genProof config request complianceCheck).proofs =
        ⟨some (genProof .age_verification), some (genProof .risk_threshold), none⟩) := by
  subst hAge hRisk hSD
  rcases except_unit_cases (validateAgeInput request.age (resolvedMinimumAge config request))
    with hA | ⟨eA, hA⟩
  · rcases except_unit_cases (validateRiskInput complianceCheck.riskScore
        (resolvedMaxRiskScore config request)) with hR | ⟨eR, hR⟩
    · rcases except_unit_cases
          (validateSelectiveDisclosureInput (sdInputOf config request complianceCheck))
        with hS | ⟨eS, hS⟩
      · have hgen : generateAttestation genProof config request complianceCheck =
            attestationReturn config request complianceCheck
              ⟨some (genProof .age_verification), some (genProof .risk_threshold),
                some (genProof .selective_disclosure)⟩ true := by
          unfold generateAttestation
          rw [generateAgeProof_ok _ _ _ hA, generateRiskProof_ok _ _ _ hR,
            generateSDProof_ok _ _ hS]
        rw [hgen, hA, hR, hS]
        simp [attestationReturn]
      · have hgen : generateAttestation genProof config request complianceCheck =
            attestationReturn config request complianceCheck
              ⟨some (genProof .age_verification), some (genProof .risk_threshold), none⟩
              false := by
          unfold generateAttestation
          rw [generateAgeProof_ok _ _ _ hA, generateRiskProof_ok _ _ _ hR,
            generateSDProof_error _ _ _ hS]
        rw [hgen, hA, hR, hS]
        simp [attestationReturn]
    · have hgen : generateAttestation genProof config request complianceCheck =
          attestationReturn config request complianceCheck
            ⟨some (genProof .age_verification), none, none⟩ false := by
        unfold generateAttestation
        rw [generateAgeProof_ok _ _ _ hA, generateRiskProof_error _ _ _ _ hR]
      rw [hgen, hA, hR]
      simp [attestationReturn]
  · have hgen : generateAttestation genProof config request complianceCheck =
        attestationReturn config request complianceCheck ⟨none, none, none⟩ false := by
      unfold generateAttestation
      rw [generateAgeProof_error _ _ _ _ hA]
    rw [hgen, hA]
    simp [attestationReturn]

/-- Witness for C3 (amended): a request with age 25 against the default
minimum 18 but provider risk score 7 against the default threshold 5 yields
a non-compliant attestation that keeps the already generated age proof and
omits the risk and selective-disclosure proofs. -/
theorem C3_attestation_error_behavior_witness :
    (generateAttestation (fun _ => ⟨[1], [], false⟩) ⟨none, none, none⟩
        ⟨25, none, none, none, none⟩ ⟨false, 7, false⟩).isCompliant = false ∧
    (generateAttestation (fun _ => ⟨[1], [], false⟩) ⟨none, none, none⟩
        ⟨25, none, none, none, none⟩ ⟨false, 7, false⟩).proofs =
      ⟨some ⟨[1], [], false⟩, none, none⟩ :=
  (C3_attestation_error_behavior (fun _ => ⟨[1], [], false⟩) ⟨none, none, none⟩
      ⟨25, none, none, none, none⟩ ⟨false, 7, false⟩ _ _ _ rfl rfl rfl).2.2.1
    (by norm_num [validateAgeInput, resolvedMinimumAge])
    (by
      norm_num [validateRiskInput, resolvedMaxRiskScore]
      exact fun h => nomatch h)

/-- C3 counterexample: the claim reads "whichever proofs preceded the
failure [are] omitted from the proofs field"; the code keeps the proofs
generated before the failure.  Concretely, for age 25 (age validation
passes, the age proof is generated) and provider risk score 7 against the
default threshold 5 (risk validation then fails), the returned record still
carries the age proof — the proof that preceded the failure is present, not
omitted. -/
theorem C3_counterexample :
    validateRiskInput (7 : ℚ)
      (resolvedMaxRiskScore ⟨none, none, none⟩ ⟨25, none, none, none, none⟩) ≠ .ok () ∧
    (generateAttestation (fun _ => ⟨[1], [], false⟩) ⟨none, none, none⟩
        ⟨25, none, none, none, none⟩ ⟨false, 7, false⟩).proofs.age =
      some ⟨[1], [], false⟩ := by
  have hA : validateAgeInput (25 : ℚ)
      (resolvedMinimumAge ⟨none, none, none⟩ ⟨25, none, none, none, none⟩) = .ok () := by
    norm_num [validateAgeInput, resolvedMinimumAge]
  have hR : validateRiskInput (7 : ℚ)
      (resolvedMaxRiskScore ⟨none, none, none⟩ ⟨25, none, none, none, none⟩) =
      .error "Risk verification will fail: risk exceeds threshold" := by
    norm_num [validateRiskInput, resolvedMaxRiskScore]
  constructor
  · rw [hR]
    exact fun h => nomatch h
  · have hgen : generateAttestation (fun _ => ⟨[1], [], false⟩) ⟨none, none, none⟩
        ⟨25, none, none, none, none⟩ ⟨false, 7, false⟩ =
        attestationReturn ⟨none, none, none⟩ ⟨25, none, none, none, none⟩ ⟨false, 7, false⟩
          ⟨some ⟨[1], [], false⟩, none, none⟩ false := by
      unfold generateAttestation
      rw [generateAgeProof_ok _ _ _ hA, generateRiskProof_error _ _ _ _ hR]
    rw [hgen]
    rfl

lemma jLookup_proof (A B C : JValue) :
    jLookup [("proof", A), ("publicInputs", B), ("isRealProof", C)] "proof" = some A := rfl

lemma jLookup_publicInputs (A B C : JValue) :
    jLookup [("proof", A), ("publicInputs", B), ("isRealProof", C)] "publicInputs" = some B := rfl

lemma jLookup_isRealProof (A B C : JValue) :
    jLookup [("proof", A), ("publicInputs", B), ("isRealProof", C)] "isRealProof" = some C := rfl

/-- C8: for every proof whose byte entries are in fact bytes (below 256, as
every `Uint8Array` entry is), deserializing its serialization returns the
record unchanged: the ordered byte sequence (hence its length), the ordered
`publicInputs` string list and the `isRealProof` flag are all preserved. -/
theorem C8_serialization_round_trip (p : GeneratedProof)
    (hbytes : ∀ b ∈ p.proof, b < 256) :
    deserializeProof (serializeProof p) = p := by
  have h1 : (p.proof.map fun b => JValue.num (Int.ofNat b)).map jToUint8 = p.proof := by
    rw [List.map_map]
    apply List.map_congr_left ?_ |>.trans (List.map_id _)
    intro b hb
    have hb' := hbytes b hb
    show jToUint8 (JValue.num (Int.ofNat b)) = b
    rw [show jToUint8 (JValue.num (Int.ofNat b)) = ((Int.ofNat b) % 256).toNat from rfl]
    have h0 : (0 : ℤ) ≤ Int.ofNat b := Int.ofNat_nonneg b
    have h256 : Int.ofNat b < 256 := Int.ofNat_lt.mpr hb'
    rw [Int.emod_eq_of_lt h0 h256]
    exact Int.toNat_ofNat b
  have h2 : (p.publicInputs.map JValue.str).map jToStr = p.publicInputs := by
    rw [List.map_map]
    apply List.map_congr_left ?_ |>.trans (List.map_id _)
    intro s hs
    simp [jToStr, Function.comp]
  unfold serializeProof deserializeProof
  dsimp only
  rw [jLookup_proof, jLookup_publicInputs, jLookup_isRealProof]
  cases p with
  | mk pr pi ir =>
    simp only at h1 h2 ⊢
    rw [h1, h2]

/-- Witness for C8 on a two-byte mock proof. -/
theorem C8_serialization_round_trip_witness :
    deserializeProof (serializeProof ⟨[0, 255], ["18", "5"], false⟩) =
      ⟨[0, 255], ["18", "5"], false⟩ :=
  C8_serialization_round_trip ⟨[0, 255], ["18", "5"], false⟩ (by decide)

lemma effectiveBand_none_none (total : ℚ) :
    effectiveBand total none none = defaultBand total := rfl

/-- Source: `round4` fixes every rational with denominator 10000. -/
lemma round4_fixed (m : ℤ) : round4 ((m : ℚ) / 10000) = (m : ℚ) / 10000 := by
  unfold round4 jsRound
  have h : (m : ℚ) / 10000 * 10000 = (m : ℚ) := by ring
  rw [h]
  norm_num

/-- Rounding to 4 decimals moves a value by at most half of 1/10000. -/
lemma abs_round4_sub_le (q : ℚ) : |round4 q - q| ≤ 1 / 20000 := by
  unfold round4 jsRound
  have hc1 : ((⌊q * 10000 + 1/2⌋ : ℤ) : ℚ) ≤ q * 10000 + 1/2 := Int.floor_le _
  have hc2 : q * 10000 + 1/2 < ((⌊q * 10000 + 1/2⌋ : ℤ) : ℚ) + 1 := Int.lt_floor_add_one _
  rw [abs_le]
  constructor <;> linarith

/-- Every output of the noise step has denominator 10000. -/
lemma noisyStep_quarterDec (n : ℕ) (r : ℕ → ℚ) (i : ℕ) (s : ℚ) :
    ∃ m : ℤ, noisyStep n r i s = (m : ℚ) / 10000 := by
  refine ⟨100 * ⌊(s + (r (n + 2 * i) - 1/2) * (1/10) * s) * 100⌋ +
    pickCents (r (n + 2 * i + 1)), ?_⟩
  unfold noisyStep
  push_cast
  ring

/-- Membership in `mapIdx` comes from some index/element pair. -/
lemma mem_mapIdx_imp {α β : Type} (f : ℕ → α → β) (l : List α) (b : β)
    (hb : b ∈ l.mapIdx f) : ∃ i a, b = f i a := by
  induction l generalizing f with
  | nil =>
    rw [List.mapIdx_nil] at hb
    simp at hb
  | cons x xs ih =>
    rw [List.mapIdx_cons] at hb
    rcases List.mem_cons.mp hb with h | h
    · exact ⟨0, x, h⟩
    · obtain ⟨i, a, ha⟩ := ih _ h
      exact ⟨i + 1, a, ha⟩

/-- Core conservation argument: if every entry of `ys` has denominator
10000 and `ys` is non-empty, then rounding after pushing the residual
`total - sum` into the last entry yields a list summing to `total` within
half of 1/10000. -/
lemma adjust_round_sum (total : ℚ) (ys : List ℚ) (hne : ys ≠ [])
    (hdec : ∀ y ∈ ys, ∃ m : ℤ, y = (m : ℚ) / 10000) :
    |((ys.dropLast ++ (ys.getLast?.map fun l => l + (total - ys.sum)).toList).map
        round4).sum - total| ≤ 1 / 20000 := by
  set L := ys.getLast hne with hL
  have hlast : ys.getLast? = some L := List.getLast?_eq_getLast ys hne
  have hsplit : ys.dropLast ++ [L] = ys := List.dropLast_append_getLast hne
  have hsum : ys.sum = ys.dropLast.sum + L := by
    conv_lhs => rw [← hsplit]
    rw [List.sum_append]
    simp
  have hfix : ys.dropLast.map round4 = ys.dropLast := by
    apply List.map_congr_left ?_ |>.trans (List.map_id _)
    intro y hy
    obtain ⟨m, hm⟩ := hdec y (List.dropLast_subset ys hy)
    rw [hm]
    exact round4_fixed m
  rw [hlast]
  simp only [Option.map_some', Option.toList_some]
  rw [List.map_append, List.sum_append, hfix]
  simp only [List.map_cons, List.map_nil, List.sum_cons, List.sum_nil]
  have harg : L + (total - ys.sum) = total - ys.dropLast.sum := by
    rw [hsum]
    ring
  rw [harg]
  have := abs_round4_sub_le (total - ys.dropLast.sum)
  calc |ys.dropLast.sum + (round4 (total - ys.dropLast.sum) + 0) - total|
      = |round4 (total - ys.dropLast.sum) - (total - ys.dropLast.sum)| := by ring_nf
    _ ≤ 1 / 20000 := this

/-- The splitting pipeline conserves the total to within half of 1/10000,
for every draw stream and every positive fragment count. -/
lemma splitCore_sum (total : ℚ) (n : ℕ) (hn : 1 ≤ n) (r : ℕ → ℚ) :
    |(splitCore total n r).sum - total| ≤ 1 / 20000 := by
  unfold splitCore
  apply adjust_round_sum
  · intro hnil
    have hlen := congrArg List.length hnil
    rw [List.length_mapIdx, List.length_map, List.length_map, List.length_range] at hlen
    simp at hlen
    omega
  · intro y hy
    obtain ⟨i, a, ha⟩ := mem_mapIdx_imp _ _ _ hy
    rw [ha]
    exact noisyStep_quarterDec n r i a

/-- C1: for every total ≥ 0.1 and every draw stream, both
`splitAmountDeterministic` (for every positive fragment count, hence for
every integer seed) and `splitAmount` (whenever the drawn fragment count is
positive, as it always is for the default bands) return a list summing to
the total within 1e-4 absolute tolerance — the residual having been pushed
into the last fragment before rounding. -/
theorem C1_split_sum_conservation (total : ℚ) (ht : 1/10 ≤ total) (r : ℕ → ℚ)
    (count : ℕ) (hc : 1 ≤ count) (minSplits maxSplits : Option ℕ)
    (hcount : 1 ≤ (chosenSplitCount total minSplits maxSplits (r 0)).toNat) :
    |(splitAmountDeterministic total count r).sum - total| < 1 / 10000 ∧
    |(splitAmount total minSplits maxSplits r).sum - total| < 1 / 10000 := by
  have hnotlt : ¬ total < 1/10 := not_lt.mpr ht
  constructor
  · rw [splitAmountDeterministic, if_neg hnotlt]
    exact lt_of_le_of_lt (splitCore_sum total count hc r) (by norm_num)
  · rw [splitAmount, if_neg hnotlt]
    exact lt_of_le_of_lt (splitCore_sum total _ hcount _) (by norm_num)

/-- Witness for C1: total 1, two fragments in deterministic mode, the
all-zeros draw stream (the drawn count for total 1 with default bands is
3). -/
theorem C1_split_sum_conservation_witness :
    |(splitAmountDeterministic 1 2 fun _ => 0).sum - 1| < 1 / 10000 ∧
    |(splitAmount 1 none none fun _ => 0).sum - 1| < 1 / 10000 :=
  C1_split_sum_conservation 1 (by norm_num) (fun _ => 0) 2 (by norm_num) none none
    (by norm_num [chosenSplitCount, effectiveBand_none_none, defaultBand])

lemma curveOrder_pos : 0 < ED25519_CURVE_ORDER := by norm_num [ED25519_CURVE_ORDER]

lemma two_pow_32_lt_curveOrder : 2 ^ 32 < ED25519_CURVE_ORDER := by
  norm_num [ED25519_CURVE_ORDER]

lemma curveOrder_le_two_pow_256 : ED25519_CURVE_ORDER ≤ 256 ^ 32 := by
  norm_num [ED25519_CURVE_ORDER]

lemma foldHash_lt (l : List ℕ) : foldHash l < ED25519_CURVE_ORDER := by
  unfold foldHash
  suffices h : ∀ (l : List ℕ) (a : ℕ), a < ED25519_CURVE_ORDER →
      l.foldl (fun hash b => (hash * 256 + b) % ED25519_CURVE_ORDER) a <
        ED25519_CURVE_ORDER by
    exact h l 0 curveOrder_pos
  intro l
  induction l with
  | nil => intro a ha; exact ha
  | cons b t ih =>
    intro a ha
    exact ih _ (Nat.mod_lt _ curveOrder_pos)

lemma foldHash_append_index (seed : List ℕ) (index : ℕ) :
    foldHash (seed ++ indexBytes index) ≡
      foldHash seed * 2 ^ 32 + index % 2 ^ 32 [MOD ED25519_CURVE_ORDER] := by
  unfold foldHash indexBytes
  rw [List.foldl_append]
  simp only [List.foldl_cons, List.foldl_nil]
  set V := List.foldl (fun hash b => (hash * 256 + b) % ED25519_CURVE_ORDER) 0 seed with hV
  set j := index % 2 ^ 32 with hj
  have step : ∀ a b : ℕ, (a * 256 + b) % ED25519_CURVE_ORDER ≡ a * 256 + b
      [MOD ED25519_CURVE_ORDER] := fun a b => Nat.mod_modEq _ _
  have e1 : (V * 256 + j / 2 ^ 24 % 256) % ED25519_CURVE_ORDER ≡
      V * 256 + j / 2 ^ 24 % 256 [MOD ED25519_CURVE_ORDER] := step _ _
  have e2 := ((e1.mul_right 256).add_right (j / 2 ^ 16 % 256)).trans
    (Nat.ModEq.refl _) |>.symm
  -- chain the four folding steps back to the unreduced polynomial
  have c1 : ((V * 256 + j / 2 ^ 24 % 256) % ED25519_CURVE_ORDER * 256 +
      j / 2 ^ 16 % 256) ≡ (V * 256 + j / 2 ^ 24 % 256) * 256 + j / 2 ^ 16 % 256
      [MOD ED25519_CURVE_ORDER] := (e1.mul_right 256).add_right _
  have c1' := (step _ (j / 2 ^ 16 % 256)).trans c1
  have c2 : ((V * 256 + j / 2 ^ 24 % 256) % ED25519_CURVE_ORDER * 256 +
      j / 2 ^ 16 % 256) % ED25519_CURVE_ORDER * 256 + j / 2 ^ 8 % 256 ≡
      ((V * 256 + j / 2 ^ 24 % 256) * 256 + j / 2 ^ 16 % 256) * 256 + j / 2 ^ 8 % 256
      [MOD ED25519_CURVE_ORDER] := (c1'.mul_right 256).add_right _
  have c2' := (step _ (j / 2 ^ 8 % 256)).trans c2
  have c3 : (((V * 256 + j / 2 ^ 24 % 256) % ED25519_CURVE_ORDER * 256 +
      j / 2 ^ 16 % 256) % ED25519_CURVE_ORDER * 256 + j / 2 ^ 8 % 256) %
      ED25519_CURVE_ORDER * 256 + j % 256 ≡
      (((V * 256 + j / 2 ^ 24 % 256) * 256 + j / 2 ^ 16 % 256) * 256 +
        j / 2 ^ 8 % 256) * 256 + j % 256 [MOD ED25519_CURVE_ORDER] :=
    (c2'.mul_right 256).add_right _
  have c3' := (step _ (j % 256)).trans c3
  refine c3'.trans ?_
  have hjlt : j < 2 ^ 32 := Nat.mod_lt _ (by norm_num)
  have hexp : (((V * 256 + j / 2 ^ 24 % 256) * 256 + j / 2 ^ 16 % 256) * 256 +
      j / 2 ^ 8 % 256) * 256 + j % 256 = V * 2 ^ 32 + j := by
    have hdecomp : j / 2 ^ 24 % 256 * 2 ^ 24 + j / 2 ^ 16 % 256 * 2 ^ 16 +
        j / 2 ^ 8 % 256 * 2 ^ 8 + j % 256 = j := by omega
    ring_nf
    ring_nf at hdecomp
    omega
  rw [hexp]

lemma foldHash_index_ne (seed : List ℕ) (i j : ℕ) (hi : i < 2 ^ 32) (hj : j < 2 ^ 32)
    (hij : i ≠ j) : foldHash (seed ++ indexBytes i) ≠ foldHash (seed ++ indexBytes j) := by
  intro heq
  have h1 := foldHash_append_index seed i
  have h2 := foldHash_append_index seed j
  rw [Nat.mod_eq_of_lt hi] at h1
  rw [Nat.mod_eq_of_lt hj] at h2
  have hmod : foldHash seed * 2 ^ 32 + i ≡ foldHash seed * 2 ^ 32 + j
      [MOD ED25519_CURVE_ORDER] := h1.symm.trans (heq ▸ h2)
  have hij' : i ≡ j [MOD ED25519_CURVE_ORDER] := Nat.ModEq.add_left_cancel' _ hmod
  exact hij (hij'.eq_of_lt_of_lt (lt_trans hi two_pow_32_lt_curveOrder)
    (lt_trans hj two_pow_32_lt_curveOrder))

lemma decode_toBytesLE (n : ℕ) : ∀ h : ℕ, decodeBE (toBytesLE n h).reverse = h % 256 ^ n := by
  induction n with
  | zero => intro h; simp [toBytesLE, decodeBE, Nat.mod_one]
  | succ n ih =>
    intro h
    rw [show toBytesLE (n + 1) h = h % 256 :: toBytesLE n (h / 256) from rfl]
    rw [List.reverse_cons]
    unfold decodeBE
    rw [List.foldl_append]
    simp only [List.foldl_cons, List.foldl_nil]
    have := ih (h / 256)
    unfold decodeBE at this
    rw [this]
    rw [Nat.div_mod_eq_mod_mul_div, pow_succ']
    have hdvd : (256 : ℕ) ∣ 256 * 256 ^ n := Dvd.intro _ rfl
    rw [← Nat.mod_mod_of_dvd h hdvd]
    exact Nat.div_add_mod' _ 256

lemma deriveSeedBytes_index_ne (seed : List ℕ) (i j : ℕ) (hi : i < 2 ^ 32)
    (hj : j < 2 ^ 32) (hij : i ≠ j) :
    deriveSeedBytes seed i ≠ deriveSeedBytes seed j := by
  intro heq
  apply foldHash_index_ne seed i j hi hj hij
  have hdec := congrArg decodeBE heq
  unfold deriveSeedBytes at hdec
  rw [decode_toBytesLE, decode_toBytesLE] at hdec
  have hb1 : foldHash (seed ++ indexBytes i) < 256 ^ 32 :=
    lt_of_lt_of_le (foldHash_lt _) curveOrder_le_two_pow_256
  have hb2 : foldHash (seed ++ indexBytes j) < 256 ^ 32 :=
    lt_of_lt_of_le (foldHash_lt _) curveOrder_le_two_pow_256
  rwa [Nat.mod_eq_of_lt hb1, Nat.mod_eq_of_lt hb2] at hdec

/-- C5: for every injective external seed-to-address map, every 32-byte
seed and distinct u32 indices, the derived addresses differ; and the
derivation is a pure function of `(seed, index)` — equal inputs give equal
outputs. -/
theorem C5_address_derivation (α : Type) (fromSeed : List ℕ → α)
    (hinj : Function.Injective fromSeed) (seed : List ℕ) (hseed : seed.length = 32)
    (i j : ℕ) (hi : i < 2 ^ 32) (hj : j < 2 ^ 32) (hij : i ≠ j) :
    deriveAddress fromSeed seed i ≠ deriveAddress fromSeed seed j ∧
    deriveAddress fromSeed seed i = deriveAddress fromSeed seed i := by
  refine ⟨?_, rfl⟩
  intro heq
  exact deriveSeedBytes_index_ne seed i j hi hj hij (hinj heq)

/-- Witness for C5: the all-zero 32-byte seed, indices 0 and 1, with the
external map instantiated to the identity on byte lists. -/
theorem C5_address_derivation_witness :
    deriveAddress (id : List ℕ → List ℕ) (List.replicate 32 0) 0 ≠
      deriveAddress (id : List ℕ → List ℕ) (List.replicate 32 0) 1 ∧
    deriveAddress (id : List ℕ → List ℕ) (List.replicate 32 0) 0 =
      deriveAddress (id : List ℕ → List ℕ) (List.replicate 32 0) 0 :=
  C5_address_derivation (List ℕ) id Function.injective_id (List.replicate 32 0)
    (by simp) 0 1 (by norm_num) (by norm_num) (by norm_num)

/-- C6: evidence of the missing length check.  `deriveKeypair` never
inspects `seed.length`: for the 0-byte seed and index 0 it still produces a
32-byte derived seed (all zeros) and hence an address, instead of failing
with `InvalidSeedLength` as the spec requires. -/
theorem C6_no_seed_length_check :
    (deriveSeedBytes [] 0).length = 32 ∧
    deriveAddress (id : List ℕ → List ℕ) [] 0 = List.replicate 32 0 := by
  constructor
  · decide
  · decide

lemma scheduleFrom_length {α : Type} (fromSeed : List ℕ → α) (seed : List ℕ)
    (delay : ℕ → ℤ) (u : ℕ → ℚ) :
    ∀ (l : List ℚ) (ct : ℚ) (idx : ℕ),
      (scheduleFrom fromSeed seed delay u ct idx l).length = l.length := by
  intro l
  induction l with
  | nil => intro ct idx; rfl
  | cons a rest ih =>
    intro ct idx
    rw [scheduleFrom, List.length_cons, List.length_cons, ih]

lemma scheduleFrom_get? {α : Type} (fromSeed : List ℕ → α) (seed : List ℕ)
    (delay : ℕ → ℤ) (u : ℕ → ℚ) :
    ∀ (l : List ℚ) (ct : ℚ) (idx k : ℕ), k < l.length →
      (scheduleFrom fromSeed seed delay u ct idx l).get? k = some
        { amount := l.getD k 0
          targetAddress := deriveAddress fromSeed seed (idx + k)
          scheduledTime := ct + (((List.range (k + 1)).map fun i =>
              ((delay (idx + i) : ℤ) : ℚ)).sum) +
            (u (idx + k) - 1/2) * (60 * 60 * 1000)
          status := .pending } := by
  intro l
  induction l with
  | nil =>
    intro ct idx k hk
    simp at hk
  | cons a rest ih =>
    intro ct idx k hk
    cases k with
    | zero =>
      rw [scheduleFrom]
      rw [List.get?_cons_zero, Option.some_inj]
      have hsum : (((List.range 1).map fun i => ((delay (idx + i) : ℤ) : ℚ)).sum) =
          ((delay idx : ℤ) : ℚ) := by
        rw [List.range_succ, List.range_zero]
        simp
      ext
      · rfl
      · rfl
      · show ct + (delay idx : ℚ) + (u idx - 1/2) * (60 * 60 * 1000) =
          ct + (((List.range 1).map fun i => ((delay (idx + i) : ℤ) : ℚ)).sum) +
            (u (idx + 0) - 1/2) * (60 * 60 * 1000)
        rw [hsum, Nat.add_zero]
      · rfl
    | succ k =>
      rw [scheduleFrom]
      rw [List.get?_cons_succ]
      rw [ih (ct + (delay idx : ℚ)) (idx + 1) k (by simpa using hk)]
      rw [Option.some_inj]
      have hidx : ∀ i : ℕ, idx + 1 + i = idx + (i + 1) := fun i => by omega
      ext
      · rfl
      · show deriveAddress fromSeed seed (idx + 1 + k) =
          deriveAddress fromSeed seed (idx + (k + 1))
        rw [hidx]
      · show ct + (delay idx : ℚ) + (((List.range (k + 1)).map fun i =>
            ((delay (idx + 1 + i) : ℤ) : ℚ)).sum) +
            (u (idx + 1 + k) - 1/2) * (60 * 60 * 1000) =
          ct + (((List.range (k + 1 + 1)).map fun i =>
            ((delay (idx + i) : ℤ) : ℚ)).sum) +
            (u (idx + (k + 1)) - 1/2) * (60 * 60 * 1000)
        rw [hidx k]
        have hsum : (((List.range (k + 1 + 1)).map fun i =>
            ((delay (idx + i) : ℤ) : ℚ)).sum) =
            ((delay idx : ℤ) : ℚ) + (((List.range (k + 1)).map fun i =>
              ((delay (idx + (i + 1)) : ℤ) : ℚ)).sum) := by
          rw [List.range_succ_eq_map]
          rw [List.map_cons, List.sum_cons, List.map_map]
          congr 1
        rw [hsum]
        have hptw : (((List.range (k + 1)).map fun i =>
            ((delay (idx + 1 + i) : ℤ) : ℚ)).sum) =
            (((List.range (k + 1)).map fun i =>
              ((delay (idx + (i + 1)) : ℤ) : ℚ)).sum) := by
          apply congrArg
          apply List.map_congr_left
          intro i hi
          rw [hidx]
        rw [hptw]
        ring
      · rfl

/-- C9: for every non-empty fragment list, all delay draws of the rounded
exponential form over uniforms in [0,1) and all jitter draws in [0,1):
the schedule has one entry per fragment; every delay is a nonnegative
integer, so the pre-jitter cursor (which starts at `now + 24h`) is
non-decreasing across fragments; fragment k's entry carries the address
derived at index k and a scheduled time equal to its cursor plus jitter,
hence within 30 minutes of its cursor and never before `now + 24h - 30min`. -/
theorem C9_scheduler_timing (α : Type) (fromSeed : List ℕ → α) (now : ℚ)
    (splits : List ℚ) (hne : splits ≠ []) (seed : List ℕ)
    (delay : ℕ → ℤ) (U : ℕ → ℝ) (u : ℕ → ℚ)
    (hdelay : ∀ k, delay k = ⌊-(avgDelayMs : ℝ) * Real.log (1 - U k) + 1/2⌋)
    (hU : ∀ k, 0 ≤ U k ∧ U k < 1) (hu : ∀ k, 0 ≤ u k ∧ u k < 1) :
    (scheduleWithdrawals fromSeed now splits seed delay u).length = splits.length ∧
    (∀ k, 0 ≤ delay k) ∧
    (∀ k, preJitterCursor now delay k ≤ preJitterCursor now delay (k + 1)) ∧
    (∀ k, k < splits.length →
      (scheduleWithdrawals fromSeed now splits seed delay u).get? k = some
        { amount := splits.getD k 0
          targetAddress := deriveAddress fromSeed seed k
          scheduledTime := preJitterCursor now delay k +
            (u k - 1/2) * (60 * 60 * 1000)
          status := .pending } ∧
      |preJitterCursor now delay k + (u k - 1/2) * (60 * 60 * 1000) -
        preJitterCursor now delay k| ≤ 30 * 60 * 1000 ∧
      now + minAgingMs - 30 * 60 * 1000 ≤
        preJitterCursor now delay k + (u k - 1/2) * (60 * 60 * 1000)) := by
  have hdnn : ∀ k, 0 ≤ delay k := by
    intro k
    rw [hdelay k]
    rw [Int.le_floor]
    have hlog : Real.log (1 - U k) ≤ 0 :=
      Real.log_nonpos (by linarith [(hU k).2]) (by linarith [(hU k).1])
    have havg : (0 : ℝ) ≤ (avgDelayMs : ℝ) := by
      rw [show ((avgDelayMs : ℚ) : ℝ) = ((14400000 : ℚ) : ℝ) from by norm_num [avgDelayMs]]
      norm_num
    have : (0 : ℝ) ≤ -(avgDelayMs : ℝ) * Real.log (1 - U k) := by nlinarith
    push_cast
    linarith
  have hjit : ∀ k, |(u k - 1/2) * (60 * 60 * 1000 : ℚ)| ≤ 30 * 60 * 1000 := by
    intro k
    rw [abs_mul]
    have h1 : |u k - 1/2| ≤ 1/2 := abs_le.mpr ⟨by linarith [(hu k).1], by linarith [(hu k).2]⟩
    have h2 : |(60 * 60 * 1000 : ℚ)| = 60 * 60 * 1000 := by norm_num
    rw [h2]
    nlinarith
  refine ⟨?_, hdnn, ?_, ?_⟩
  · exact scheduleFrom_length fromSeed seed delay u splits (now + minAgingMs) 0
  · intro k
    unfold preJitterCursor
    have hstep : (((List.range (k + 1 + 1)).map fun i => ((delay i : ℤ) : ℚ)).sum) =
        (((List.range (k + 1)).map fun i => ((delay i : ℤ) : ℚ)).sum) +
          ((delay (k + 1) : ℤ) : ℚ) := by
      rw [List.range_succ, List.map_append, List.sum_append]
      simp
    rw [hstep]
    have h2 : (0 : ℚ) ≤ ((delay (k + 1) : ℤ) : ℚ) := by
      exact_mod_cast hdnn (k + 1)
    linarith
  · intro k hk
    have hget := scheduleFrom_get? fromSeed seed delay u splits (now + minAgingMs) 0 k hk
    have hcur : now + minAgingMs + (((List.range (k + 1)).map fun i =>
        ((delay (0 + i) : ℤ) : ℚ)).sum) = preJitterCursor now delay k := by
      unfold preJitterCursor
      congr 1
      apply congrArg
      apply List.map_congr_left
      intro i hi
      rw [Nat.zero_add]
    refine ⟨?_, ?_, ?_⟩
    · rw [scheduleWithdrawals, hget, Option.some_inj]
      ext
      · rfl
      · show deriveAddress fromSeed seed (0 + k) = deriveAddress fromSeed seed k
        rw [Nat.zero_add]
      · show now + minAgingMs + (((List.range (k + 1)).map fun i =>
            ((delay (0 + i) : ℤ) : ℚ)).sum) + (u (0 + k) - 1/2) * (60 * 60 * 1000) =
          preJitterCursor now delay k + (u k - 1/2) * (60 * 60 * 1000)
        rw [hcur, Nat.zero_add]
      · rfl
    · have := hjit k
      calc |preJitterCursor now delay k + (u k - 1/2) * (60 * 60 * 1000) -
            preJitterCursor now delay k|
          = |(u k - 1/2) * (60 * 60 * 1000 : ℚ)| := by ring_nf
        _ ≤ 30 * 60 * 1000 := this
    · have hsum : (0 : ℚ) ≤ (((List.range (k + 1)).map fun i =>
          ((delay i : ℤ) : ℚ)).sum) := by
        apply List.sum_nonneg
        intro x hx
        obtain ⟨i, hi, rfl⟩ := List.mem_map.mp hx
        exact_mod_cast hdnn i
      have hcub : now + minAgingMs ≤ preJitterCursor now delay k := by
        unfold preJitterCursor
        linarith
      have hjlow : -(30 * 60 * 1000 : ℚ) ≤ (u k - 1/2) * (60 * 60 * 1000) :=
        (abs_le.mp (hjit k)).1
      linarith

/-- Witness for C9: one fragment of amount 1, all uniform draws 0 (the
exponential delay draw rounds to 0 milliseconds). -/
theorem C9_scheduler_timing_witness :
    (scheduleWithdrawals (id : List ℕ → List ℕ) 0 [1] (List.replicate 32 0)
      (fun _ => 0) (fun _ => 0)).length = [(1 : ℚ)].length :=
  (C9_scheduler_timing (List ℕ) id 0 [1] (by simp) (List.replicate 32 0) (fun _ => 0)
    (fun _ => 0) (fun _ => 0)
    (fun k => by
      rw [show (1 : ℝ) - 0 = 1 from by norm_num, Real.log_one]
      norm_num)
    (fun k => ⟨le_refl 0, by norm_num⟩) (fun k => ⟨le_refl 0, by norm_num⟩)).1

/-- Witness for C2: a provider response with risk score 10 and no evidence
is non-compliant at threshold 5 (and indeed at any threshold). -/
theorem C2_compliance_verdict_witness :
    (checkCompliance 5 ⟨10, [], "max risk"⟩).isCompliant = false :=
  (C2_compliance_verdict 5 ⟨10, [], "max risk"⟩).2.2.1 (by norm_num)

end ShadowPay
